import Mathlib

/-!
Shallow embedding of the HFT market-making simulator core
(`execution_simulator.py`, `utils/quote_engine.py`, `utils/risk_manager.py`).

Python floats are modelled as rationals, timestamps as rationals (seconds),
order-id strings as naturals, and every random draw (queue estimates,
latency delays) is an explicit parameter of the operation that performs it.
-/

set_option maxHeartbeats 1000000

set_option linter.unusedVariables false

namespace HFT

/-- Order side (`"buy"` / `"sell"`). -/
inductive Side
  | buy
  | sell
deriving DecidableEq, Repr

/-- `TICK_SIZE = 0.0001`, the DEXT-USD tick size used by both the execution
simulator and the quote engine. -/
def TICK : ℚ := 1 / 10000

/-- `abs(a - b) < tick / 2`: the price-level matching test
(`QuoteEngine._same_price_level` and the inline checks in
`ExecutionSimulator._queue_ahead` / `_process_trade_update`). -/
def samePriceLevel (a b : ℚ) : Bool := |a - b| < TICK / 2

/-- `(order.side == "buy" and trade_side == "sell") or
(order.side == "sell" and trade_side == "buy")` from
`ExecutionSimulator._process_trade_update`. -/
def oppositeSides (orderSide tradeSide : Side) : Bool :=
  (orderSide == Side.buy && tradeSide == Side.sell) ||
  (orderSide == Side.sell && tradeSide == Side.buy)

/-- The `SimOrder` named tuple of the execution simulator.  `qty` holds the
remaining quantity (partial fills overwrite it with
`order.qty - fill_qty`). -/
structure SimOrder where
  id : Nat
  side : Side
  qty : ℚ
  price : ℚ
  queue_ahead : ℚ
  ts : ℚ
deriving DecidableEq, Repr

/-- The per-order body of `ExecutionSimulator._process_trade_update`: given one
live order and a trade `(trade_price, trade_qty, trade_side)`, returns the
surviving order (`none` when the order is fully filled and removed) and the
fill quantity (`0` when no fill occurred).

    new_queue = max(0, order.queue_ahead - trade_qty)
    if new_queue <= 0:
        volume_that_reached_us = max(0, trade_qty - old_queue)
        fill_qty = min(order.qty, volume_that_reached_us)
        fill_qty = max(0, fill_qty)
        if fill_qty > 0:
            if fill_qty >= order.qty: remove
            else: keep with qty = order.qty - fill_qty, queue_ahead = 0
-/
def processOrderOnTrade (o : SimOrder) (tp tq : ℚ) (tside : Side) :
    Option SimOrder × ℚ :=
  if samePriceLevel o.price tp && oppositeSides o.side tside then
    let new_queue : ℚ := max 0 (o.queue_ahead - tq)
    if new_queue ≤ 0 then
      let volume_that_reached_us : ℚ := max 0 (tq - o.queue_ahead)
      let fill_qty : ℚ := max 0 (min o.qty volume_that_reached_us)
      if 0 < fill_qty then
        if o.qty ≤ fill_qty then (none, fill_qty)
        else (some { o with qty := o.qty - fill_qty, queue_ahead := 0 }, fill_qty)
      else (some { o with queue_ahead := new_queue }, 0)
    else (some { o with queue_ahead := new_queue }, 0)
  else (some o, 0)

/-! ## Risk manager (`utils/risk_manager.py`) -/

/-- The `RiskLimits` dataclass. -/
structure RiskLimits where
  max_position : ℚ
  max_daily_loss : ℚ
  max_drawdown : ℚ
  position_concentration : ℚ
  var_limit : ℚ
  max_orders_per_second : Nat
  max_latency_ms : ℚ
deriving DecidableEq, Repr

/-- `RiskManager.risk_breaches`: only the three critical check names
(`position_limit`, `daily_pnl_limit`, `drawdown_limit`) can ever enter the
set (`_update_risk_breaches`), so it is modelled as three membership flags. -/
structure Breaches where
  position_limit : Bool
  daily_pnl_limit : Bool
  drawdown_limit : Bool
deriving DecidableEq, Repr

/-- `len(self.risk_breaches)`. -/
def Breaches.card (b : Breaches) : Nat :=
  (if b.position_limit then 1 else 0) + (if b.daily_pnl_limit then 1 else 0) +
    (if b.drawdown_limit then 1 else 0)

/-- Mutable state of `RiskManager` (timestamps are rationals in seconds;
`last_risk_check`, being write-only in the source, is omitted). -/
structure RiskSt where
  session_start : ℚ
  daily_pnl : ℚ
  peak_equity : ℚ
  max_drawdown_observed : ℚ
  order_timestamps : List ℚ
  position_history : List (ℚ × ℚ)
  pnl_history : List (ℚ × ℚ)
  risk_breaches : Breaches
deriving DecidableEq, Repr

/-- `RiskManager.__init__` (capital starts at 1000). -/
def initRiskSt (session_start : ℚ) : RiskSt :=
  ⟨session_start, 0, 1000, 0, [], [], [], ⟨false, false, false⟩⟩

/-- The eight named gates returned by `check_pre_trade_risk`; the record has
exactly the eight keys of the Python `checks` dict. -/
structure RiskChecks where
  position_limit : Bool
  daily_pnl_limit : Bool
  drawdown_limit : Bool
  concentration_risk : Bool
  var_limit : Bool
  order_rate_limit : Bool
  latency_limit : Bool
  no_critical_breaches : Bool
deriving DecidableEq, Repr

/-- `all(checks.values())`. -/
def RiskChecks.passAll (c : RiskChecks) : Bool :=
  c.position_limit && c.daily_pnl_limit && c.drawdown_limit &&
    c.concentration_risk && c.var_limit && c.order_rate_limit &&
    c.latency_limit && c.no_critical_breaches

/-- `RiskManager._check_drawdown_limit`. -/
def checkDrawdownLimit (lim : RiskLimits) (st : RiskSt) (now current_equity : ℚ) :
    Bool :=
  if st.peak_equity ≤ 0 then true
  else
    let session_duration_minutes := (now - st.session_start) / 60
    let current_drawdown := (st.peak_equity - current_equity) / st.peak_equity
    if session_duration_minutes < 5 then decide (current_drawdown ≤ 2 / 100)
    else decide (current_drawdown ≤ lim.max_drawdown)

/-- `RiskManager._check_concentration_risk`. -/
def checkConcentrationRisk (lim : RiskLimits) (size price : ℚ) : Bool :=
  let order_value := size * price
  let typical_minute_volume_tokens : ℚ :=
    if 50000 ≤ price then 10
    else if 1000 ≤ price then 50
    else if 100 ≤ price then 100
    else if 10 ≤ price then 500
    else if 1 ≤ price then 1000
    else 2000
  let max_order_value := typical_minute_volume_tokens * lim.position_concentration * price
  if order_value ≤ 1 / 2 then true
  else decide (order_value ≤ max_order_value)

/-- `RiskManager._check_var_limit` (`daily_volatility = 0.01`, 99% quantile
factor `2.33`). -/
def checkVarLimit (lim : RiskLimits) (position current_price : ℚ) : Bool :=
  let position_value := |position * current_price|
  let var_estimate := position_value * (1 / 100) * (233 / 100)
  decide (var_estimate ≤ lim.var_limit)

/-- `RiskManager._check_order_rate_limit`. -/
def checkOrderRateLimit (lim : RiskLimits) (st : RiskSt) : Bool :=
  st.order_timestamps.length ≤ lim.max_orders_per_second

/-- `RiskManager.record_order_attempt`: append `now`, evict entries not newer
than `now - 1` (the 1-second order window). -/
def recordOrderAttempt (st : RiskSt) (now : ℚ) : RiskSt :=
  { st with order_timestamps :=
      (st.order_timestamps ++ [now]).filter (fun t => decide (now - 1 < t)) }

/-- `RiskManager._update_risk_breaches`: a critical gate that fails is added
to the set, one that passes is discarded, so membership afterwards equals the
gate's failure. -/
def updateRiskBreaches (checks : RiskChecks) : Breaches :=
  ⟨!checks.position_limit, !checks.daily_pnl_limit, !checks.drawdown_limit⟩

/-- `RiskManager.check_pre_trade_risk`: returns `(can_trade, checks)` and the
new state (the persistent breach set is updated from the computed checks). -/
def checkPreTradeRisk (lim : RiskLimits) (st : RiskSt) (now : ℚ) (side : Side)
    (size price current_position current_equity latency_ms : ℚ) :
    Bool × RiskChecks × RiskSt :=
  let position_delta := if side = Side.buy then size else -size
  let new_position := current_position + position_delta
  let current_pnl := current_equity - st.peak_equity
  let session_duration_minutes := (now - st.session_start) / 60
  let daily_pnl_ok :=
    if session_duration_minutes < 5 then
      decide (-(st.peak_equity * (1 / 100)) ≤ current_pnl)
    else decide (-lim.max_daily_loss ≤ current_pnl)
  let checks : RiskChecks :=
    { position_limit := decide (|new_position| ≤ lim.max_position)
      daily_pnl_limit := daily_pnl_ok
      drawdown_limit := checkDrawdownLimit lim st now current_equity
      concentration_risk := checkConcentrationRisk lim size price
      var_limit := checkVarLimit lim new_position price
      order_rate_limit := checkOrderRateLimit lim st
      latency_limit := decide (latency_ms ≤ lim.max_latency_ms)
      no_critical_breaches := st.risk_breaches.card == 0 }
  let st' := { st with risk_breaches := updateRiskBreaches checks }
  (checks.passAll, checks, st')

/-- `RiskManager.update_position_and_pnl`: histories are appended (and pruned
to the last hour), `daily_pnl` is set to equity minus the previous peak, then
peak equity and max observed drawdown are refreshed. -/
def updatePositionAndPnl (st : RiskSt) (new_position new_equity now : ℚ) :
    RiskSt :=
  let position_history :=
    (st.position_history ++ [(now, new_position)]).filter
      (fun e => decide (now - 3600 < e.1))
  let current_pnl := new_equity - st.peak_equity
  let pnl_history :=
    (st.pnl_history ++ [(now, current_pnl)]).filter
      (fun e => decide (now - 3600 < e.1))
  let st1 := { st with position_history := position_history,
                       pnl_history := pnl_history, daily_pnl := current_pnl }
  if st.peak_equity < new_equity then { st1 with peak_equity := new_equity }
  else
    let current_drawdown := (st.peak_equity - new_equity) / st.peak_equity
    if st.max_drawdown_observed < current_drawdown then
      { st1 with max_drawdown_observed := current_drawdown }
    else st1

/-- `RiskManager.emergency_risk_shutdown`. -/
def emergencyRiskShutdown (lim : RiskLimits) (st : RiskSt) : Bool :=
  decide (st.daily_pnl < -lim.max_daily_loss * (8 / 10)) ||
    decide (lim.max_drawdown * (9 / 10) < st.max_drawdown_observed) ||
    decide (2 ≤ st.risk_breaches.card)

/-- `InventoryManager` (`inventory_half_life` is the constant 300 s assigned
in `__init__` and never changed, so it is inlined below). -/
structure InventoryManager where
  target_inventory : ℚ
  max_inventory : ℚ
  last_inventory_time : ℚ
deriving DecidableEq, Repr

/-- `InventoryManager.get_inventory_skew` (`now` models `datetime.now`; the
mid price argument is ignored by the source as well). -/
def getInventorySkew (m : InventoryManager)
    (now current_inventory current_mid_price market_volatility : ℚ) : ℚ × ℚ :=
  let time_since_last := now - m.last_inventory_time
  let inventory_deviation := current_inventory - m.target_inventory
  let inventory_risk := |inventory_deviation| / m.max_inventory
  let time_penalty := min 1 (time_since_last / 300)
  let base_skew_ticks := inventory_deviation * 10
  let vol_multiplier := 1 + market_volatility * 2
  let risk_adjusted_skew :=
    base_skew_ticks * (1 + inventory_risk * time_penalty) * vol_multiplier
  (-risk_adjusted_skew / 2, risk_adjusted_skew / 2)

/-- Helper: `passAll` means every one of the eight gates is set. -/
theorem RiskChecks.passAll_iff (c : RiskChecks) :
    c.passAll = true ↔
      (c.position_limit = true ∧ c.daily_pnl_limit = true ∧
        c.drawdown_limit = true ∧ c.concentration_risk = true ∧
        c.var_limit = true ∧ c.order_rate_limit = true ∧
        c.latency_limit = true ∧ c.no_critical_breaches = true) := by
  simp only [RiskChecks.passAll, Bool.and_eq_true]
  tauto

/-- C4: `check_pre_trade_risk` returns a pair whose checks map holds exactly
the eight named gates (the fields of `RiskChecks`), and the permit is true
iff all eight gate values are true. -/
theorem pre_trade_permit_iff_all_gates (lim : RiskLimits) (st : RiskSt)
    (now : ℚ) (side : Side)
    (size price current_position current_equity latency_ms : ℚ) :
    (checkPreTradeRisk lim st now side size price current_position
        current_equity latency_ms).1 = true ↔
      ((checkPreTradeRisk lim st now side size price current_position
          current_equity latency_ms).2.1.position_limit = true ∧
        (checkPreTradeRisk lim st now side size price current_position
          current_equity latency_ms).2.1.daily_pnl_limit = true ∧
        (checkPreTradeRisk lim st now side size price current_position
          current_equity latency_ms).2.1.drawdown_limit = true ∧
        (checkPreTradeRisk lim st now side size price current_position
          current_equity latency_ms).2.1.concentration_risk = true ∧
        (checkPreTradeRisk lim st now side size price current_position
          current_equity latency_ms).2.1.var_limit = true ∧
        (checkPreTradeRisk lim st now side size price current_position
          current_equity latency_ms).2.1.order_rate_limit = true ∧
        (checkPreTradeRisk lim st now side size price current_position
          current_equity latency_ms).2.1.latency_limit = true ∧
        (checkPreTradeRisk lim st now side size price current_position
          current_equity latency_ms).2.1.no_critical_breaches = true) :=
  RiskChecks.passAll_iff _

/-- C6: `emergency_risk_shutdown` returns true exactly when daily PnL is below
minus 80% of the daily-loss limit, or the observed max drawdown exceeds 90% of
the drawdown limit, or at least two critical breaches are present. -/
theorem emergency_shutdown_iff (lim : RiskLimits) (st : RiskSt) :
    emergencyRiskShutdown lim st = true ↔
      (st.daily_pnl < -lim.max_daily_loss * (8 / 10) ∨
        lim.max_drawdown * (9 / 10) < st.max_drawdown_observed ∨
        2 ≤ st.risk_breaches.card) := by
  simp [emergencyRiskShutdown, Bool.or_eq_true, decide_eq_true_eq, or_assoc]

/-- C9: `get_inventory_skew` returns
`(-s/2, s/2)` for
`s = (inv - target) * 10 * (1 + (|inv - target|/max_inv) * min 1 (elapsed/300)) * (1 + 2*vol)`,
and the two skews always sum to zero. -/
theorem inventory_skew_formula_and_antisymmetry (m : InventoryManager)
    (now inv mid vol : ℚ) :
    getInventorySkew m now inv mid vol =
      (-((inv - m.target_inventory) * 10 *
          (1 + |inv - m.target_inventory| / m.max_inventory *
            min 1 ((now - m.last_inventory_time) / 300)) * (1 + 2 * vol)) / 2,
        (inv - m.target_inventory) * 10 *
          (1 + |inv - m.target_inventory| / m.max_inventory *
            min 1 ((now - m.last_inventory_time) / 300)) * (1 + 2 * vol) / 2) ∧
      (getInventorySkew m now inv mid vol).1 +
        (getInventorySkew m now inv mid vol).2 = 0 := by
  constructor
  · simp only [getInventorySkew, Prod.mk.injEq]
    constructor <;> ring
  · simp only [getInventorySkew]
    ring

/-- C1: for a trade `(tp, tq, tside)` hitting a live order `o` (same price
level, opposite side), the queue ahead is updated to `max 0 (old - tq)`; when
the queue reaches zero the fill quantity is `max 0 (min o.qty (tq - old))`;
no fill exceeds the trade quantity or the order's remaining quantity; and a
trade with quantity exactly `old_queue` zeroes the queue with zero fill. -/
theorem trade_update_queue_and_fill (o : SimOrder) (tp tq : ℚ) (tside : Side)
    (hmatch : samePriceLevel o.price tp = true)
    (hopp : oppositeSides o.side tside = true)
    (hq : 0 ≤ o.queue_ahead) (ht : 0 ≤ tq) (hqty : 0 ≤ o.qty) :
    (∀ o', (processOrderOnTrade o tp tq tside).1 = some o' →
        o'.queue_ahead = max 0 (o.queue_ahead - tq)) ∧
    (o.queue_ahead ≤ tq →
        (processOrderOnTrade o tp tq tside).2 =
          max 0 (min o.qty (tq - o.queue_ahead))) ∧
    (processOrderOnTrade o tp tq tside).2 ≤ tq ∧
    (processOrderOnTrade o tp tq tside).2 ≤ o.qty ∧
    (tq = o.queue_ahead →
        (processOrderOnTrade o tp tq tside).1 = some { o with queue_ahead := 0 } ∧
        (processOrderOnTrade o tp tq tside).2 = 0) := by
  simp only [processOrderOnTrade, hmatch, hopp, Bool.and_self, if_true]
  rcases le_or_lt o.queue_ahead tq with hle | hgt
  · rw [show max (0:ℚ) (o.queue_ahead - tq) = 0 from max_eq_left (by linarith),
        show max (0:ℚ) (tq - o.queue_ahead) = tq - o.queue_ahead from
          max_eq_right (by linarith),
        show max (0:ℚ) (min o.qty (tq - o.queue_ahead)) =
            min o.qty (tq - o.queue_ahead) from
          max_eq_right (le_min hqty (by linarith))]
    simp only [le_refl, if_true]
    rcases lt_or_le 0 (min o.qty (tq - o.queue_ahead)) with hpos | hnonpos
    · have hne : tq ≠ o.queue_ahead := by
        intro heq
        rw [heq] at hpos
        simp [min_eq_right hqty] at hpos
      rw [if_pos hpos]
      rcases le_or_lt o.qty (min o.qty (tq - o.queue_ahead)) with hfull | hpart
      · rw [if_pos hfull]
        refine ⟨fun o' h => absurd h (by simp), fun _ => rfl, ?_, min_le_left _ _,
          fun heq => absurd heq hne⟩
        exact le_trans (min_le_right _ _) (by linarith)
      · rw [if_neg (not_le.mpr hpart)]
        refine ⟨?_, fun _ => rfl, ?_, min_le_left _ _, fun heq => absurd heq hne⟩
        · intro o' h
          injection h with h
          rw [← h]
        · exact le_trans (min_le_right _ _) (by linarith)
    · rw [if_neg (not_lt.mpr hnonpos)]
      have hzero : min o.qty (tq - o.queue_ahead) = 0 :=
        le_antisymm hnonpos (le_min hqty (by linarith))
      refine ⟨?_, fun _ => hzero.symm, ht, hqty, fun _ => ⟨rfl, rfl⟩⟩
      intro o' h
      injection h with h
      rw [← h]
  · have hnotle : ¬ (max (0:ℚ) (o.queue_ahead - tq) ≤ 0) := by
      rw [show max (0:ℚ) (o.queue_ahead - tq) = o.queue_ahead - tq from
        max_eq_right (by linarith)]
      intro h
      linarith
    rw [if_neg hnotle]
    refine ⟨?_, fun h => absurd h (by linarith), ht, hqty, fun heq => absurd heq (by linarith)⟩
    intro o' h
    injection h with h
    rw [← h]

/-- Witness for C1 at a concrete input: a buy order with 5 units queued ahead,
hit by a sell trade of 15 at the same price. -/
theorem trade_update_queue_and_fill_witness :
    (∀ o', (processOrderOnTrade ⟨0, Side.buy, 10, 100, 5, 0⟩ 100 15 Side.sell).1 = some o' →
        o'.queue_ahead = max 0 ((⟨0, Side.buy, 10, 100, 5, 0⟩ : SimOrder).queue_ahead - 15)) ∧
    ((⟨0, Side.buy, 10, 100, 5, 0⟩ : SimOrder).queue_ahead ≤ 15 →
        (processOrderOnTrade ⟨0, Side.buy, 10, 100, 5, 0⟩ 100 15 Side.sell).2 =
          max 0 (min (⟨0, Side.buy, 10, 100, 5, 0⟩ : SimOrder).qty
            (15 - (⟨0, Side.buy, 10, 100, 5, 0⟩ : SimOrder).queue_ahead))) ∧
    (processOrderOnTrade ⟨0, Side.buy, 10, 100, 5, 0⟩ 100 15 Side.sell).2 ≤ 15 ∧
    (processOrderOnTrade ⟨0, Side.buy, 10, 100, 5, 0⟩ 100 15 Side.sell).2 ≤
      (⟨0, Side.buy, 10, 100, 5, 0⟩ : SimOrder).qty ∧
    ((15 : ℚ) = (⟨0, Side.buy, 10, 100, 5, 0⟩ : SimOrder).queue_ahead →
        (processOrderOnTrade ⟨0, Side.buy, 10, 100, 5, 0⟩ 100 15 Side.sell).1 =
          some { (⟨0, Side.buy, 10, 100, 5, 0⟩ : SimOrder) with queue_ahead := 0 } ∧
        (processOrderOnTrade ⟨0, Side.buy, 10, 100, 5, 0⟩ 100 15 Side.sell).2 = 0) :=
  trade_update_queue_and_fill ⟨0, Side.buy, 10, 100, 5, 0⟩ 100 15 Side.sell
    (by norm_num [samePriceLevel, TICK]) (by decide) (by norm_num) (by norm_num)
    (by norm_num)

/-! ## Execution simulator state (`execution_simulator.py`) -/

/-- An entry of `self.fills` (`oid`, `side`, `qty`, `price`, `fee`, `ts`). -/
structure FillRec where
  oid : Nat
  side : Side
  qty : ℚ
  price : ℚ
  fee : ℚ
  ts : ℚ
deriving DecidableEq, Repr

/-- Payload of the `quote_engine_callback('fill', ...)` publication. -/
structure FillEvt where
  order_id : Nat
  side : Side
  fill_qty : ℚ
  remaining_qty : ℚ
  price : ℚ
  fee : ℚ
deriving DecidableEq, Repr

/-- The two delayed-event kinds of the simulator's priority queue. -/
inductive EvData
  | cancel (order_id : Nat)
  | trade (trade_price trade_qty : ℚ) (trade_side : Side) (ts : ℚ)
deriving DecidableEq, Repr

/-- A `DelayedEvent` of the heap (`execute_time`, kind, payload). -/
structure DelayedEvent where
  execute_time : ℚ
  data : EvData
deriving DecidableEq, Repr

/-- `heapq.heappush`: the queue is modelled as a list kept sorted by
`execute_time` (stable for equal keys). -/
def pushEvent : List DelayedEvent → DelayedEvent → List DelayedEvent
  | [], e => [e]
  | x :: xs, e =>
      if x.execute_time ≤ e.execute_time then x :: pushEvent xs e
      else e :: x :: xs

/-- An order-book snapshot (`{bids, asks}` as best-first price/size lists). -/
structure Book where
  bids : List (ℚ × ℚ)
  asks : List (ℚ × ℚ)
deriving DecidableEq, Repr

/-- Mutable state of `ExecutionSimulator` (the live-order dict becomes a list
in insertion order; the thread lock is not needed in this sequential
model). -/
structure SimSt where
  live_orders : List SimOrder
  cash : ℚ
  position : ℚ
  fills : List FillRec
  last_top : ℚ × ℚ
  last_orderbook : Option Book
  volume_history : List (ℚ × ℚ)
  total_volume_30d : ℚ
  current_maker_fee : ℚ
  event_queue : List DelayedEvent
deriving DecidableEq, Repr

/-- `ExecutionSimulator.__init__`: cash 1000, 40 bps starting maker fee. -/
def initSimSt : SimSt := ⟨[], 1000, 0, [], (0, 0), none, [], 0, 4 / 1000, []⟩

/-- The Coinbase fee-tier table `self.fee_tiers` (volume threshold, rate). -/
def feeTiers : List (ℚ × ℚ) :=
  [(0, 4 / 1000), (10000, 25 / 10000), (50000, 15 / 10000), (100000, 1 / 1000),
    (1000000, 8 / 10000), (15000000, 6 / 10000), (75000000, 3 / 10000),
    (250000000, 0), (400000000, 0)]

/-- 30 days in seconds (`timedelta(days=30)`). -/
def THIRTY_DAYS_SECONDS : ℚ := 2592000

/-- The eviction loop of `_update_rolling_volume`: drop leading entries older
than the cutoff, subtracting their notional from the running total. -/
def dropExpiredVolume (cutoff : ℚ) :
    List (ℚ × ℚ) → ℚ → List (ℚ × ℚ) × ℚ
  | [], tot => ([], tot)
  | e :: rest, tot =>
      if e.1 < cutoff then dropExpiredVolume cutoff rest (tot - e.2)
      else (e :: rest, tot)

/-- `ExecutionSimulator._update_rolling_volume` (`now` models
`datetime.now`). -/
def updateRollingVolume (now : ℚ) (st : SimSt) : SimSt :=
  let p := dropExpiredVolume (now - THIRTY_DAYS_SECONDS) st.volume_history
    st.total_volume_30d
  { st with volume_history := p.1, total_volume_30d := max 0 p.2 }

/-- `ExecutionSimulator._add_volume`. -/
def addVolume (now volume_usd : ℚ) (st : SimSt) : SimSt :=
  updateRollingVolume now
    { st with volume_history := st.volume_history ++ [(now, volume_usd)],
              total_volume_30d := st.total_volume_30d + volume_usd }

/-- The tier-selection loop of `_update_fee_tier`: first entry (walking the
reversed table, i.e. highest threshold first) whose threshold the rolling
total meets. -/
def pickTier (total : ℚ) : List (ℚ × ℚ) → Option ℚ
  | [] => none
  | t :: rest => if t.1 ≤ total then some t.2 else pickTier total rest

/-- `ExecutionSimulator._update_fee_tier` (no tier matching leaves the rate
unchanged, as the Python loop falls through). -/
def updateFeeTier (now : ℚ) (st : SimSt) : SimSt :=
  let st1 := updateRollingVolume now st
  { st1 with current_maker_fee :=
      (pickTier st1.total_volume_30d feeTiers.reverse).getD st1.current_maker_fee }

/-- `ExecutionSimulator._execute_fill`: position/cash update, maker fee at the
currently active rate, volume + fee-tier refresh, fill record, and the
published `fill` event (whose `remaining_qty` is `order.qty - fill_qty`). -/
def executeFill (st : SimSt) (o : SimOrder) (fill_qty ts now : ℚ) :
    SimSt × FillEvt :=
  let st1 :=
    if o.side = Side.buy then
      { st with position := st.position + fill_qty,
                cash := st.cash - o.price * fill_qty }
    else
      { st with position := st.position - fill_qty,
                cash := st.cash + o.price * fill_qty }
  let notional := fill_qty * o.price
  let fee := notional * st.current_maker_fee
  let st2 := { st1 with cash := st1.cash - fee }
  let st3 := updateFeeTier now (addVolume now notional st2)
  let st4 := { st3 with fills :=
      st3.fills ++ [⟨o.id, o.side, fill_qty, o.price, fee, ts⟩] }
  (st4, ⟨o.id, o.side, fill_qty, o.qty - fill_qty, o.price, fee⟩)

/-- One iteration of the `_process_trade_update` loop: queue update via
`processOrderOnTrade` plus, when a positive fill results, `executeFill`.
Returns the new simulator state, the surviving order (`none` when fully
filled and removed) and the published fill event, if any. -/
def processTradeOrderStep (st : SimSt) (o : SimOrder) (tp tq : ℚ) (tside : Side)
    (ts now : ℚ) : SimSt × Option SimOrder × Option FillEvt :=
  let r := processOrderOnTrade o tp tq tside
  if 0 < r.2 then
    let p := executeFill st o r.2 ts now
    (p.1, r.1, some p.2)
  else (st, r.1, none)

/-- `ExecutionSimulator.on_trade` for a numeric timestamp: stale/future trades
are dropped with the state untouched; otherwise one `trade_update` event is
scheduled at `now + processing_delay` (the uniform 200–800 µs draw, in
seconds) carrying the validated payload. -/
def onTrade (st : SimSt) (trade_price trade_qty : ℚ) (trade_side : Side)
    (ts now processing_delay : ℚ) : SimSt :=
  let time_diff := now - ts
  if 5 < time_diff then st
  else if time_diff < -1 then st
  else
    let ev : DelayedEvent :=
      ⟨now + processing_delay, EvData.trade trade_price trade_qty trade_side ts⟩
    { st with event_queue := pushEvent st.event_queue ev }

/-- `ExecutionSimulator.cancel_order`: only schedules the delayed cancel
(`cancel_delay` models the uniform 150–400 ms draw); the live-order table is
not modified here. -/
def simCancelOrder (st : SimSt) (order_id : Nat) (now cancel_delay : ℚ) :
    SimSt :=
  let ev : DelayedEvent := ⟨now + cancel_delay, EvData.cancel order_id⟩
  { st with event_queue := pushEvent st.event_queue ev }

/-- `self.live_orders.pop(order_id, None)` lookup half. -/
def findOrder (orders : List SimOrder) (oid : Nat) : Option SimOrder :=
  orders.find? (fun o => o.id == oid)

/-- `self.live_orders.pop(order_id, None)` removal half. -/
def removeOrder (orders : List SimOrder) (oid : Nat) : List SimOrder :=
  orders.filter (fun o => o.id != oid)

/-- `self.live_orders[order['id']] = sim_order`: dict assignment (overwrite in
place or append in insertion order). -/
def insertOrder : List SimOrder → SimOrder → List SimOrder
  | [], o => [o]
  | x :: xs, o => if x.id == o.id then o :: xs else x :: insertOrder xs o

/-- `ExecutionSimulator._queue_ahead`: the queue estimate for a fresh
submission; `u` stands for the uniform draw of whichever branch is taken (the
0.1–0.3 multiplier on a matching level, else the absolute fallback draw). -/
def simQueueAhead (lastBook : Option Book) (side : Side) (price u : ℚ) : ℚ :=
  match lastBook with
  | none => u
  | some bk =>
    let levels := if side = Side.buy then bk.bids else bk.asks
    match levels.find? (fun l => samePriceLevel l.1 price) with
    | some l => l.2 * u
    | none => u

/-- `ExecutionSimulator.submit_order` (effective immediately, no latency). -/
def submitOrder (st : SimSt) (oid : Nat) (side : Side) (qty price now u : ℚ) :
    SimSt :=
  let queue_ahead := simQueueAhead st.last_orderbook side price u
  { st with live_orders :=
      insertOrder st.live_orders ⟨oid, side, qty, price, queue_ahead, now⟩ }

/-! ## Quote engine state (`utils/quote_engine.py`) -/

/-- The quote engine's `Order` object (latency bookkeeping omitted; order ids
are fresh naturals standing for the timestamp-derived id strings). -/
structure EOrder where
  order_id : Nat
  side : Side
  price : ℚ
  qty : ℚ
  initial_queue : ℚ
  current_queue : ℚ
  filled_qty : ℚ
  remaining_qty : ℚ
  entry_time : ℚ
  mid_price_at_entry : ℚ
deriving DecidableEq, Repr

/-- Tag recorded by `_track_order_sent`. -/
inductive OrderTag
  | new_bid
  | new_ask
  | amend
deriving DecidableEq, Repr

/-- Quote-engine state (`QuoteEngine.__init__`).  Print-only bookkeeping,
latency histograms and performance analytics are omitted; `position` and
`cash` are the engine's own scalars (set once, never mutated by the source);
`next_id` generates the fresh order ids. -/
structure EngSt where
  max_position_size : ℚ
  limits : RiskLimits
  position : ℚ
  cash : ℚ
  open_bid_order : Option EOrder
  open_ask_order : Option EOrder
  last_cancel_time : Option ℚ
  last_manual_cancel_time : Option ℚ
  last_bid_replace_time : Option ℚ
  last_ask_replace_time : Option ℚ
  spread_capture_pnl : ℚ
  total_fees_paid : ℚ
  orders_sent : Nat
  trades_filled : Nat
  recent_orders : List (ℚ × OrderTag)
  recent_fills : List ℚ
  risk : RiskSt
  next_id : Nat
deriving DecidableEq, Repr

/-- The `RiskLimits` record built in `QuoteEngine.__init__` (initial cash is
the constant 1000): 2% daily loss, 5% drawdown, 30% concentration, 1% VaR,
50 orders/s, 100 ms latency. -/
def engineRiskLimits (max_position_size : ℚ) : RiskLimits :=
  ⟨max_position_size, 1000 * (2 / 100), 5 / 100, 3 / 10, 1000 * (1 / 100),
    50, 100⟩

/-- `QuoteEngine.__init__` (fresh engine, no open orders). -/
def initEngSt (max_position_size session_start : ℚ) : EngSt :=
  { max_position_size := max_position_size
    limits := engineRiskLimits max_position_size
    position := 0
    cash := 1000
    open_bid_order := none
    open_ask_order := none
    last_cancel_time := none
    last_manual_cancel_time := none
    last_bid_replace_time := none
    last_ask_replace_time := none
    spread_capture_pnl := 0
    total_fees_paid := 0
    orders_sent := 0
    trades_filled := 0
    recent_orders := []
    recent_fills := []
    risk := initRiskSt session_start
    next_id := 0 }

/-- Combined system: the simulator plus the quote engine wired to it through
`quote_engine_callback`. -/
structure Sys where
  sim : SimSt
  eng : EngSt
deriving DecidableEq, Repr

/-- `QuoteEngine._track_fill` (5-minute rolling fill window). -/
def trackFill (eng : EngSt) (now : ℚ) : EngSt :=
  { eng with trades_filled := eng.trades_filled + 1,
             recent_fills := (eng.recent_fills ++ [now]).filter
               (fun t => decide (now - 300 < t)) }

/-- `QuoteEngine._track_order_sent` (5-minute rolling order window). -/
def trackOrderSent (eng : EngSt) (tag : OrderTag) (now : ℚ) : EngSt :=
  { eng with orders_sent := eng.orders_sent + 1,
             recent_orders := (eng.recent_orders ++ [(now, tag)]).filter
               (fun e => decide (now - 300 < e.1)) }

/-- `QuoteEngine._handle_execution_event('fill', ...)`: reconcile the mirror
order of the event's side, count the fill, and push position/equity into the
risk manager (`sim` is the simulator state at callback time; the source's
"mid price" is `(price + price) / 2`). -/
def handleFillEvent (eng : EngSt) (sim : SimSt) (e : FillEvt) (now : ℚ) :
    EngSt :=
  match e.side with
  | Side.buy =>
    match eng.open_bid_order with
    | some ob =>
      if ob.order_id == e.order_id then
        let eng1 :=
          if e.remaining_qty ≤ 0 then { eng with open_bid_order := none }
          else { eng with open_bid_order := some { ob with
                   remaining_qty := e.remaining_qty,
                   filled_qty := ob.qty - e.remaining_qty } }
        let eng2 := trackFill eng1 now
        let mid_price := (e.price + e.price) / 2
        let current_equity := sim.cash + sim.position * mid_price
        { eng2 with risk :=
            updatePositionAndPnl eng2.risk sim.position current_equity now }
      else eng
    | none => eng
  | Side.sell =>
    match eng.open_ask_order with
    | some oa =>
      if oa.order_id == e.order_id then
        let eng1 :=
          if e.remaining_qty ≤ 0 then { eng with open_ask_order := none }
          else { eng with open_ask_order := some { oa with
                   remaining_qty := e.remaining_qty,
                   filled_qty := oa.qty - e.remaining_qty } }
        let eng2 := trackFill eng1 now
        let mid_price := (e.price + e.price) / 2
        let current_equity := sim.cash + sim.position * mid_price
        { eng2 with risk :=
            updatePositionAndPnl eng2.risk sim.position current_equity now }
      else eng
    | none => eng

/-- `QuoteEngine._handle_execution_event('cancel', ...)`: drop the mirror
entry of that side when the ids agree. -/
def handleCancelEvent (eng : EngSt) (order_id : Nat) (side : Side) : EngSt :=
  match side with
  | Side.buy =>
    match eng.open_bid_order with
    | some ob =>
      if ob.order_id == order_id then { eng with open_bid_order := none }
      else eng
    | none => eng
  | Side.sell =>
    match eng.open_ask_order with
    | some oa =>
      if oa.order_id == order_id then { eng with open_ask_order := none }
      else eng
    | none => eng

/-- Prepend a surviving order (`none` when the order was removed). -/
def consOpt (x : Option SimOrder) (l : List SimOrder) : List SimOrder :=
  match x with
  | some o => o :: l
  | none => l

/-- Deliver an optional fill event to the quote engine (the
`quote_engine_callback` firing inside `_execute_fill`). -/
def applyFillEvt (eng : EngSt) (sim : SimSt) (e : Option FillEvt) (now : ℚ) :
    EngSt :=
  match e with
  | some ev => handleFillEvent eng sim ev now
  | none => eng

/-- The `_process_trade_update` loop over the live-order table on the combined
state: each order is examined by `processTradeOrderStep`, and any fill is
published to the quote engine synchronously, exactly as the Python callback
fires inside `_execute_fill`. -/
def processTradeOrders (tp tq : ℚ) (tside : Side) (ts now : ℚ) :
    List SimOrder → Sys → List SimOrder × Sys
  | [], sys => ([], sys)
  | o :: rest, sys =>
    let r := processTradeOrderStep sys.sim o tp tq tside ts now
    let eng' := applyFillEvt sys.eng r.1 r.2.2 now
    let rest' := processTradeOrders tp tq tside ts now rest
      { sim := r.1, eng := eng' }
    (consOpt r.2.1 rest'.1, rest'.2)

/-- `ExecutionSimulator._process_trade_update` on the combined state. -/
def processTradeUpdate (sys : Sys) (tp tq : ℚ) (tside : Side) (ts now : ℚ) :
    Sys :=
  let r := processTradeOrders tp tq tside ts now sys.sim.live_orders sys
  { sim := { r.2.sim with live_orders := r.1 }, eng := r.2.eng }

/-- Dispatch of one drained delayed event (the body of the
`on_orderbook_update` event loop): a `trade_update` replays queue consumption
and fills; a `cancel` removes the order if still present and publishes the
cancel, and is a no-op when the order is already gone. -/
def dispatchEvent (sys : Sys) (e : DelayedEvent) (now : ℚ) : Sys :=
  match e.data with
  | EvData.trade tp tq tside ts => processTradeUpdate sys tp tq tside ts now
  | EvData.cancel oid =>
    match findOrder sys.sim.live_orders oid with
    | some o =>
      { sim := { sys.sim with
          live_orders := removeOrder sys.sim.live_orders oid },
        eng := handleCancelEvent sys.eng oid o.side }
    | none => sys

/-- `ExecutionSimulator.on_orderbook_update`: refresh top-of-book, pop every
due event (the queue is sorted, so a take/drop split), then dispatch them in
order outside the lock. -/
def onOrderbookUpdate (sys : Sys) (best_bid best_ask now : ℚ) : Sys :=
  let sim0 := { sys.sim with last_top := (best_bid, best_ask) }
  let due := sim0.event_queue.takeWhile (fun e => decide (e.execute_time ≤ now))
  let rest := sim0.event_queue.dropWhile (fun e => decide (e.execute_time ≤ now))
  due.foldl (fun s e => dispatchEvent s e now)
    { sys with sim := { sim0 with event_queue := rest } }

/-- `QuoteEngine.cancel_order` on the combined state: record the cancel time,
clear the mirror slot and schedule the simulator's delayed cancel
(`cancel_delay` models the 150–400 ms draw).  With no open order on the side,
nothing but the timestamps changes. -/
def engCancelOrder (sys : Sys) (side : Side) (manual_cancel : Bool)
    (now cancel_delay : ℚ) : Sys :=
  let eng0 := { sys.eng with
    last_cancel_time := some now,
    last_manual_cancel_time :=
      if manual_cancel then some now else sys.eng.last_manual_cancel_time }
  if side = Side.buy then
    match eng0.open_bid_order with
    | some o =>
      { sim := simCancelOrder sys.sim o.order_id now cancel_delay,
        eng := { eng0 with open_bid_order := none } }
    | none => { sys with eng := eng0 }
  else
    match eng0.open_ask_order with
    | some o =>
      { sim := simCancelOrder sys.sim o.order_id now cancel_delay,
        eng := { eng0 with open_ask_order := none } }
    | none => { sys with eng := eng0 }

/-- `QuoteEngine.BASE_MAX_TICKS_AWAY`. -/
def BASE_MAX_TICKS_AWAY : ℚ := 15

/-- `QuoteEngine._can_amend_order` (within 5 ticks). -/
def canAmendOrder (order : Option EOrder) (target_price : ℚ) : Bool :=
  match order with
  | none => false
  | some o => decide (|target_price - o.price| / TICK ≤ 5)

/-- `QuoteEngine._amend_order` queue-retention schedule (80% within 1 tick,
50% within 3 ticks, 20% otherwise; queue floored at 0.001). -/
def amendOrder (o : EOrder) (new_price : ℚ) : EOrder :=
  let price_diff_ticks := |new_price - o.price| / TICK
  let queue_retention : ℚ :=
    if price_diff_ticks ≤ 1 then 8 / 10
    else if price_diff_ticks ≤ 3 then 1 / 2
    else 1 / 5
  { o with price := new_price,
           current_queue := max (1 / 1000) (o.current_queue * queue_retention) }

/-- `QuoteEngine._should_replace_order` (`last_replace_time` is the side's
`last_bid_replace_time` / `last_ask_replace_time`). -/
def shouldReplaceOrder (last_replace_time : Option ℚ) (target_price : ℚ)
    (current_order : Option EOrder) (now : ℚ) : Bool :=
  match current_order with
  | none => true
  | some o =>
    if (match last_replace_time with
        | some t => decide (now - t < 2)
        | none => false) then false
    else if !samePriceLevel target_price o.price then
      let price_diff_ticks := |target_price - o.price| / TICK
      let order_age := now - o.entry_time
      if order_age < 10 then decide (15 ≤ price_diff_ticks)
      else if order_age < 30 then decide (10 ≤ price_diff_ticks)
      else decide (5 ≤ price_diff_ticks)
    else false

/-- `QuoteEngine._calculate_queue_position`; `u` stands for the uniform draw
of whichever branch is taken. -/
def calcQueuePosition (side : Side) (price : ℚ) (bk : Book) (u : ℚ) :
    Option ℚ :=
  if bk.bids = [] ∨ bk.asks = [] then none
  else
    match side with
    | Side.buy =>
      match bk.bids.find? (fun l => samePriceLevel price l.1) with
      | some l => some (max (1 / 2) (l.2 * u))
      | none =>
        match bk.bids with
        | [] => none
        | b0 :: _ =>
          if price ≤ b0.1 ∧ b0.1 - price ≤ BASE_MAX_TICKS_AWAY * TICK then
            let ticks_away := round ((b0.1 - price) / TICK)
            if ticks_away = 0 then some (max 1 (b0.2 * u))
            else some u
          else none
    | Side.sell =>
      match bk.asks.find? (fun l => samePriceLevel price l.1) with
      | some l => some (max (1 / 2) (l.2 * u))
      | none =>
        match bk.asks with
        | [] => none
        | a0 :: _ =>
          if a0.1 ≤ price ∧ price - a0.1 ≤ BASE_MAX_TICKS_AWAY * TICK then
            let ticks_away := round ((price - a0.1) / TICK)
            if ticks_away = 0 then some (max 1 (a0.2 * u))
            else some u
          else none

/-- The tail of `QuoteEngine.place_order` after the side-specific
amend/replace policy: queue estimate, crossed-spread and whale-queue
rejections, then mirror insert plus simulator submission.  `b0`/`a0` are the
book's best levels. -/
def placeOrderSubmit (sys : Sys) (side : Side) (price size mid_price_at_entry : ℚ)
    (bk : Book) (b0 a0 : ℚ × ℚ) (now uq usim : ℚ) : Sys × Bool :=
  match calcQueuePosition side price bk uq with
  | none => (sys, false)
  | some queue_ahead =>
    if side = Side.buy ∧ a0.1 ≤ price then (sys, false)
    else if side = Side.sell ∧ price ≤ b0.1 then (sys, false)
    else if 1000 < queue_ahead then (sys, false)
    else
      let oid := sys.eng.next_id
      let newOrder : EOrder :=
        ⟨oid, side, price, size, queue_ahead, queue_ahead, 0, size, now,
          mid_price_at_entry⟩
      let sim' := submitOrder sys.sim oid side size price now usim
      if side = Side.buy then
        let eng1 := { sys.eng with open_bid_order := some newOrder,
                                   next_id := sys.eng.next_id + 1 }
        ({ sim := sim', eng := trackOrderSent eng1 OrderTag.new_bid now }, true)
      else
        let eng1 := { sys.eng with open_ask_order := some newOrder,
                                   next_id := sys.eng.next_id + 1 }
        ({ sim := sim', eng := trackOrderSent eng1 OrderTag.new_ask now }, true)

/-- `QuoteEngine.place_order` on the combined state.  Oracle arguments stand
for the random draws of the call: `uq` the `_calculate_queue_position` draw,
`usim` the simulator's own `_queue_ahead` draw at submission, `cancel_delay`
the simulator cancel latency, `latency_ms` the last recorded placement
latency fed to the risk check. -/
def placeOrder (sys : Sys) (side : Side) (price size : ℚ) (book : Option Book)
    (now uq usim cancel_delay latency_ms : ℚ) : Sys × Bool :=
  match book with
  | none => (sys, false)
  | some bk =>
    match bk.bids, bk.asks with
    | b0 :: _, a0 :: _ =>
      let mid_price_at_entry := (b0.1 + a0.1) / 2
      let sys1 : Sys := { sys with eng := { sys.eng with
        risk := recordOrderAttempt sys.eng.risk now } }
      let order_value_usd := size * price
      if order_value_usd < 1 then (sys1, false)
      else if size < 1 / 10 then (sys1, false)
      else
        let current_equity := sys1.sim.cash + sys1.sim.position * mid_price_at_entry
        let r := checkPreTradeRisk sys1.eng.limits sys1.eng.risk now side size
          price sys1.eng.position current_equity latency_ms
        let sys2 : Sys := { sys1 with eng := { sys1.eng with risk := r.2.2 } }
        if !r.1 then (sys2, false)
        else if side = Side.buy then
          if sys2.eng.max_position_size < sys2.sim.position + size then
            (sys2, false)
          else if canAmendOrder sys2.eng.open_bid_order price then
            match sys2.eng.open_bid_order with
            | some ob =>
              let engA := { sys2.eng with
                open_bid_order := some (amendOrder ob price) }
              ({ sys2 with eng := trackOrderSent engA OrderTag.amend now }, true)
            | none => (sys2, false)
          else if !(shouldReplaceOrder sys2.eng.last_bid_replace_time price
              sys2.eng.open_bid_order now) then (sys2, false)
          else
            let sys3 := match sys2.eng.open_bid_order with
              | some _ => engCancelOrder sys2 Side.buy false now cancel_delay
              | none => sys2
            let sys4 : Sys := { sys3 with eng := { sys3.eng with
              last_bid_replace_time := some now } }
            placeOrderSubmit sys4 Side.buy price size mid_price_at_entry bk b0
              a0 now uq usim
        else
          if sys2.sim.position - size < -sys2.eng.max_position_size then
            (sys2, false)
          else if canAmendOrder sys2.eng.open_ask_order price then
            match sys2.eng.open_ask_order with
            | some oa =>
              let engA := { sys2.eng with
                open_ask_order := some (amendOrder oa price) }
              ({ sys2 with eng := trackOrderSent engA OrderTag.amend now }, true)
            | none => (sys2, false)
          else if !(shouldReplaceOrder sys2.eng.last_ask_replace_time price
              sys2.eng.open_ask_order now) then (sys2, false)
          else
            let sys3 := match sys2.eng.open_ask_order with
              | some _ => engCancelOrder sys2 Side.sell false now cancel_delay
              | none => sys2
            let sys4 : Sys := { sys3 with eng := { sys3.eng with
              last_ask_replace_time := some now } }
            placeOrderSubmit sys4 Side.sell price size mid_price_at_entry bk b0
              a0 now uq usim
    | _, _ => (sys, false)

/-- Number of live simulator orders on one side. -/
def countSideOrders (orders : List SimOrder) (side : Side) : Nat :=
  (orders.filter (fun o => o.side == side)).length

/-! ## Concrete scenarios -/

/-- One live 10-unit buy order at price 100 with 5 units of queue ahead. -/
def simC2 : SimSt :=
  { initSimSt with live_orders := [⟨0, Side.buy, 10, 100, 5, 0⟩] }

/-- The engine mirroring that bid. -/
def engC2 : EngSt :=
  { initEngSt 100 0 with
      open_bid_order := some ⟨0, Side.buy, 100, 10, 5, 5, 0, 10, 0, 100⟩ }

/-- Combined state for the fee-accounting scenario. -/
def sysC2 : Sys := ⟨simC2, engC2⟩

/-- Book for the replace scenario: best bid 0.34, best ask 0.3402. -/
def bookC5 : Book := ⟨[(34 / 100, 50)], [(3402 / 10000, 50)]⟩

/-- One live 10-unit buy order at 0.33, resting for 40 s. -/
def simC5 : SimSt :=
  { initSimSt with live_orders := [⟨0, Side.buy, 10, 33 / 100, 5, 0⟩],
                   last_orderbook := some bookC5 }

/-- The engine mirroring that bid (`next_id` 1, the id 0 already used). -/
def engC5 : EngSt :=
  { initEngSt 100 0 with
      open_bid_order := some ⟨0, Side.buy, 33 / 100, 10, 5, 5, 0, 10, 0, 33 / 100⟩,
      next_id := 1 }

/-- Combined state for the replace scenario. -/
def sysC5 : Sys := ⟨simC5, engC5⟩

/-- The replace call: re-quote the bid at 0.34 (100 ticks above the resting
0.33 order) at t = 40 s. -/
def placeC5 : Sys × Bool :=
  placeOrder sysC5 Side.buy (34 / 100) 10 (some bookC5) 40 (1 / 5) (1 / 5)
    (1 / 4) 0

/-- The engine mirror order of the replace scenario. -/
def obC5 : EOrder := ⟨0, Side.buy, 33 / 100, 10, 5, 5, 0, 10, 0, 33 / 100⟩

/-- Book for the replace-then-reject scenario (same shape as `bookC5`). -/
def bookR : Book := ⟨[(34 / 100, 50)], [(3402 / 10000, 50)]⟩

/-- The engine mirror order (an ask) of the replace-then-reject scenario. -/
def obRS : EOrder := ⟨0, Side.sell, 35 / 100, 10, 5, 5, 0, 10, 0, 35 / 100⟩

/-- Simulator state for the replace-then-reject scenario. -/
def simRS : SimSt :=
  { initSimSt with live_orders := [⟨0, Side.sell, 10, 35 / 100, 5, 0⟩],
                   last_orderbook := some bookR }

/-- Engine state for the replace-then-reject scenario. -/
def engRS : EngSt :=
  { initEngSt 100 0 with open_ask_order := some obRS, next_id := 1 }

/-- Combined state for the replace-then-reject scenario. -/
def sysRS : Sys := ⟨simRS, engRS⟩

/-! ## Helper lemmas -/

theorem pushEvent_length (q : List DelayedEvent) (e : DelayedEvent) :
    (pushEvent q e).length = q.length + 1 := by
  induction q with
  | nil => rfl
  | cons x xs ih =>
    simp only [pushEvent]
    split
    · simp [ih]
    · simp

theorem updateRollingVolume_cash (now : ℚ) (st : SimSt) :
    (updateRollingVolume now st).cash = st.cash := rfl

theorem updateRollingVolume_position (now : ℚ) (st : SimSt) :
    (updateRollingVolume now st).position = st.position := rfl

theorem updateFeeTier_cash (now : ℚ) (st : SimSt) :
    (updateFeeTier now st).cash = st.cash := rfl

theorem updateFeeTier_position (now : ℚ) (st : SimSt) :
    (updateFeeTier now st).position = st.position := rfl

theorem addVolume_cash (now v : ℚ) (st : SimSt) :
    (addVolume now v st).cash = st.cash := rfl

theorem addVolume_position (now v : ℚ) (st : SimSt) :
    (addVolume now v st).position = st.position := rfl

/-- `processOrderOnTrade` on a hit whose trade volume reaches the order: the
result is the fill `min o.qty (tq - o.queue_ahead)` together with removal
(full fill) or a front-of-queue remainder (partial fill). -/
theorem processOrderOnTrade_fill (o : SimOrder) (tp tq : ℚ) (tside : Side)
    (hmatch : samePriceLevel o.price tp = true)
    (hopp : oppositeSides o.side tside = true)
    (hq : 0 ≤ o.queue_ahead) (hqty : 0 ≤ o.qty)
    (hreach : o.queue_ahead ≤ tq)
    (hpos : 0 < min o.qty (tq - o.queue_ahead)) :
    processOrderOnTrade o tp tq tside =
      (if o.qty ≤ min o.qty (tq - o.queue_ahead) then none
        else some { o with qty := o.qty - min o.qty (tq - o.queue_ahead),
                           queue_ahead := 0 },
       min o.qty (tq - o.queue_ahead)) := by
  simp only [processOrderOnTrade, hmatch, hopp, Bool.and_self, if_true]
  rw [show max (0:ℚ) (o.queue_ahead - tq) = 0 from max_eq_left (by linarith),
      show max (0:ℚ) (tq - o.queue_ahead) = tq - o.queue_ahead from
        max_eq_right (by linarith),
      show max (0:ℚ) (min o.qty (tq - o.queue_ahead)) =
          min o.qty (tq - o.queue_ahead) from
        max_eq_right (le_min hqty (by linarith))]
  rw [if_pos (le_refl (0:ℚ)), if_pos hpos]
  by_cases hfull : o.qty ≤ min o.qty (tq - o.queue_ahead)
  · rw [if_pos hfull, if_pos hfull]
  · rw [if_neg hfull, if_neg hfull]

/-! ## Claim theorems (continued) -/

/-- C8: `on_trade` drops a trade more than 5 s old or more than 1 s in the
future with the whole simulator state (live orders, event queue, cash,
position, volume history) unchanged, and otherwise enqueues exactly one
`trade_update` event carrying the validated payload at `now + d`, `d` the
uniform 200 µs – 800 µs draw. -/
theorem on_trade_validation (st : SimSt) (tp tq : ℚ) (tside : Side)
    (ts now d : ℚ) (hd : 1 / 5000 ≤ d ∧ d ≤ 1 / 1250) :
    (5 < now - ts → onTrade st tp tq tside ts now d = st) ∧
    (now - ts < -1 → onTrade st tp tq tside ts now d = st) ∧
    (¬ 5 < now - ts → ¬ now - ts < -1 →
      onTrade st tp tq tside ts now d =
        { st with event_queue := (pushEvent st.event_queue
            ⟨now + d, EvData.trade tp tq tside ts⟩) } ∧
      (onTrade st tp tq tside ts now d).event_queue.length =
        st.event_queue.length + 1 ∧
      now + 1 / 5000 ≤ now + d ∧ now + d ≤ now + 1 / 1250) := by
  obtain ⟨hd1, hd2⟩ := hd
  refine ⟨?_, ?_, ?_⟩
  · intro h
    simp only [onTrade, if_pos h]
  · intro h
    simp only [onTrade]
    rw [if_neg (by linarith), if_pos h]
  · intro h1 h2
    refine ⟨?_, ?_, by linarith, by linarith⟩
    · simp only [onTrade, if_neg h1, if_neg h2]
    · simp only [onTrade, if_neg h1, if_neg h2, pushEvent_length]

/-- Witness for C8 at a concrete input: the fresh simulator, a trade 2 s old
(kept) with delay 1/2000 s. -/
theorem on_trade_validation_witness :
    (5 < (10 : ℚ) - 8 → onTrade initSimSt 100 15 Side.sell 8 10 (1 / 2000) = initSimSt) ∧
    ((10 : ℚ) - 8 < -1 → onTrade initSimSt 100 15 Side.sell 8 10 (1 / 2000) = initSimSt) ∧
    (¬ 5 < (10 : ℚ) - 8 → ¬ (10 : ℚ) - 8 < -1 →
      onTrade initSimSt 100 15 Side.sell 8 10 (1 / 2000) =
        { initSimSt with event_queue := (pushEvent initSimSt.event_queue
            ⟨10 + 1 / 2000, EvData.trade 100 15 Side.sell 8⟩) } ∧
      (onTrade initSimSt 100 15 Side.sell 8 10 (1 / 2000)).event_queue.length =
        initSimSt.event_queue.length + 1 ∧
      (10 : ℚ) + 1 / 5000 ≤ 10 + 1 / 2000 ∧ (10 : ℚ) + 1 / 2000 ≤ 10 + 1 / 1250) :=
  on_trade_validation initSimSt 100 15 Side.sell 8 10 (1 / 2000) (by norm_num)

/-- C7: `cancel_order` never fails or raises: it only schedules a delayed
`cancel` event at `now + d` (`d` the uniform 150–400 ms draw) without
touching the live table; dispatching the drained event removes the order and
publishes a cancel when it is still present, and is a no-op when the order is
already gone (idempotence). -/
theorem cancel_order_schedule_and_idempotent (sys : Sys) (oid : Nat)
    (now d t : ℚ) (hd : 3 / 20 ≤ d ∧ d ≤ 2 / 5) :
    ((simCancelOrder sys.sim oid now d).live_orders = sys.sim.live_orders ∧
      (simCancelOrder sys.sim oid now d).event_queue =
        pushEvent sys.sim.event_queue (⟨now + d, EvData.cancel oid⟩ : DelayedEvent) ∧
      now + 3 / 20 ≤ now + d ∧ now + d ≤ now + 2 / 5) ∧
    (∀ o, findOrder sys.sim.live_orders oid = some o →
      dispatchEvent sys (⟨t, EvData.cancel oid⟩ : DelayedEvent) t =
        { sim := { sys.sim with live_orders := removeOrder sys.sim.live_orders oid },
          eng := handleCancelEvent sys.eng oid o.side }) ∧
    (findOrder sys.sim.live_orders oid = none →
      dispatchEvent sys (⟨t, EvData.cancel oid⟩ : DelayedEvent) t = sys) := by
  obtain ⟨hd1, hd2⟩ := hd
  refine ⟨⟨rfl, rfl, by linarith, by linarith⟩, ?_, ?_⟩
  · intro o h
    simp only [dispatchEvent, h]
  · intro h
    simp only [dispatchEvent, h]

/-- Witness for C7 at a concrete input (fresh system, delay 1/4 s). -/
theorem cancel_order_schedule_and_idempotent_witness :
    ((simCancelOrder (Sys.mk initSimSt (initEngSt 100 0)).sim 0 10 (1 / 4)).live_orders =
        (Sys.mk initSimSt (initEngSt 100 0)).sim.live_orders ∧
      (simCancelOrder (Sys.mk initSimSt (initEngSt 100 0)).sim 0 10 (1 / 4)).event_queue =
        pushEvent (Sys.mk initSimSt (initEngSt 100 0)).sim.event_queue
          (⟨10 + 1 / 4, EvData.cancel 0⟩ : DelayedEvent) ∧
      (10 : ℚ) + 3 / 20 ≤ 10 + 1 / 4 ∧ (10 : ℚ) + 1 / 4 ≤ 10 + 2 / 5) ∧
    (∀ o, findOrder (Sys.mk initSimSt (initEngSt 100 0)).sim.live_orders 0 = some o →
      dispatchEvent (Sys.mk initSimSt (initEngSt 100 0))
          (⟨11, EvData.cancel 0⟩ : DelayedEvent) 11 =
        { sim := { (Sys.mk initSimSt (initEngSt 100 0)).sim with
            live_orders := removeOrder (Sys.mk initSimSt (initEngSt 100 0)).sim.live_orders 0 },
          eng := handleCancelEvent (Sys.mk initSimSt (initEngSt 100 0)).eng 0 o.side }) ∧
    (findOrder (Sys.mk initSimSt (initEngSt 100 0)).sim.live_orders 0 = none →
      dispatchEvent (Sys.mk initSimSt (initEngSt 100 0))
          (⟨11, EvData.cancel 0⟩ : DelayedEvent) 11 =
        Sys.mk initSimSt (initEngSt 100 0)) :=
  cancel_order_schedule_and_idempotent (Sys.mk initSimSt (initEngSt 100 0)) 0 10
    (1 / 4) 11 (by norm_num)

/-- C3: a fill of quantity `f = min o.qty (tq - o.queue_ahead)` at price
`o.price` adds `f` to the position and subtracts `price·f` from cash on a
buy (symmetrically on a sell), additionally deducts the maker fee
`f·price·current_maker_fee` (the rate active at fill time), removes the order
when `f` equals its remaining quantity, and otherwise keeps it with
`queue_ahead = 0` and remaining reduced by `f`. -/
theorem fill_accounting_and_order_lifecycle (st : SimSt) (o : SimOrder)
    (tp tq ts now : ℚ) (tside : Side)
    (hmatch : samePriceLevel o.price tp = true)
    (hopp : oppositeSides o.side tside = true)
    (hq : 0 ≤ o.queue_ahead) (hqty : 0 ≤ o.qty)
    (hreach : o.queue_ahead ≤ tq)
    (hpos : 0 < min o.qty (tq - o.queue_ahead)) :
    (o.side = Side.buy →
      (processTradeOrderStep st o tp tq tside ts now).1.position =
          st.position + min o.qty (tq - o.queue_ahead) ∧
      (processTradeOrderStep st o tp tq tside ts now).1.cash =
          st.cash - o.price * min o.qty (tq - o.queue_ahead) -
            min o.qty (tq - o.queue_ahead) * o.price * st.current_maker_fee) ∧
    (o.side = Side.sell →
      (processTradeOrderStep st o tp tq tside ts now).1.position =
          st.position - min o.qty (tq - o.queue_ahead) ∧
      (processTradeOrderStep st o tp tq tside ts now).1.cash =
          st.cash + o.price * min o.qty (tq - o.queue_ahead) -
            min o.qty (tq - o.queue_ahead) * o.price * st.current_maker_fee) ∧
    (min o.qty (tq - o.queue_ahead) = o.qty →
      (processTradeOrderStep st o tp tq tside ts now).2.1 = none) ∧
    (min o.qty (tq - o.queue_ahead) < o.qty →
      (processTradeOrderStep st o tp tq tside ts now).2.1 =
        some { o with qty := o.qty - min o.qty (tq - o.queue_ahead),
                      queue_ahead := 0 }) := by
  have hP := processOrderOnTrade_fill o tp tq tside hmatch hopp hq hqty hreach hpos
  refine ⟨?_, ?_, ?_, ?_⟩
  · intro hside
    simp only [processTradeOrderStep, hP, if_pos hpos, executeFill, hside,
      eq_self_iff_true, if_true, addVolume, updateRollingVolume, updateFeeTier]
    constructor <;> ring
  · intro hside
    have hnotbuy : ¬ (o.side = Side.buy) := by
      rw [hside]
      intro hcon
      exact Side.noConfusion hcon
    simp only [processTradeOrderStep, hP, if_pos hpos, executeFill,
      if_neg hnotbuy, addVolume, updateRollingVolume, updateFeeTier]
    constructor <;> ring
  · intro hfull
    simp only [processTradeOrderStep, hP, if_pos hpos]
    rw [if_pos (le_of_eq hfull.symm)]
  · intro hpart
    simp only [processTradeOrderStep, hP, if_pos hpos]
    rw [if_neg (not_le.mpr hpart)]

/-- Witness for C3 at a concrete input: full fill of a 10-unit buy order at
price 100 by a sell trade of 15 against 5 units of queue. -/
theorem fill_accounting_and_order_lifecycle_witness :
    ((⟨0, Side.buy, 10, 100, 5, 0⟩ : SimOrder).side = Side.buy →
      (processTradeOrderStep initSimSt ⟨0, Side.buy, 10, 100, 5, 0⟩ 100 15
          Side.sell 1 1).1.position =
          initSimSt.position +
            min (⟨0, Side.buy, 10, 100, 5, 0⟩ : SimOrder).qty
              (15 - (⟨0, Side.buy, 10, 100, 5, 0⟩ : SimOrder).queue_ahead) ∧
      (processTradeOrderStep initSimSt ⟨0, Side.buy, 10, 100, 5, 0⟩ 100 15
          Side.sell 1 1).1.cash =
          initSimSt.cash -
            (⟨0, Side.buy, 10, 100, 5, 0⟩ : SimOrder).price *
              min (⟨0, Side.buy, 10, 100, 5, 0⟩ : SimOrder).qty
                (15 - (⟨0, Side.buy, 10, 100, 5, 0⟩ : SimOrder).queue_ahead) -
            min (⟨0, Side.buy, 10, 100, 5, 0⟩ : SimOrder).qty
                (15 - (⟨0, Side.buy, 10, 100, 5, 0⟩ : SimOrder).queue_ahead) *
              (⟨0, Side.buy, 10, 100, 5, 0⟩ : SimOrder).price *
              initSimSt.current_maker_fee) ∧
    ((⟨0, Side.buy, 10, 100, 5, 0⟩ : SimOrder).side = Side.sell →
      (processTradeOrderStep initSimSt ⟨0, Side.buy, 10, 100, 5, 0⟩ 100 15
          Side.sell 1 1).1.position =
          initSimSt.position -
            min (⟨0, Side.buy, 10, 100, 5, 0⟩ : SimOrder).qty
              (15 - (⟨0, Side.buy, 10, 100, 5, 0⟩ : SimOrder).queue_ahead) ∧
      (processTradeOrderStep initSimSt ⟨0, Side.buy, 10, 100, 5, 0⟩ 100 15
          Side.sell 1 1).1.cash =
          initSimSt.cash +
            (⟨0, Side.buy, 10, 100, 5, 0⟩ : SimOrder).price *
              min (⟨0, Side.buy, 10, 100, 5, 0⟩ : SimOrder).qty
                (15 - (⟨0, Side.buy, 10, 100, 5, 0⟩ : SimOrder).queue_ahead) -
            min (⟨0, Side.buy, 10, 100, 5, 0⟩ : SimOrder).qty
                (15 - (⟨0, Side.buy, 10, 100, 5, 0⟩ : SimOrder).queue_ahead) *
              (⟨0, Side.buy, 10, 100, 5, 0⟩ : SimOrder).price *
              initSimSt.current_maker_fee) ∧
    (min (⟨0, Side.buy, 10, 100, 5, 0⟩ : SimOrder).qty
        (15 - (⟨0, Side.buy, 10, 100, 5, 0⟩ : SimOrder).queue_ahead) =
        (⟨0, Side.buy, 10, 100, 5, 0⟩ : SimOrder).qty →
      (processTradeOrderStep initSimSt ⟨0, Side.buy, 10, 100, 5, 0⟩ 100 15
          Side.sell 1 1).2.1 = none) ∧
    (min (⟨0, Side.buy, 10, 100, 5, 0⟩ : SimOrder).qty
        (15 - (⟨0, Side.buy, 10, 100, 5, 0⟩ : SimOrder).queue_ahead) <
        (⟨0, Side.buy, 10, 100, 5, 0⟩ : SimOrder).qty →
      (processTradeOrderStep initSimSt ⟨0, Side.buy, 10, 100, 5, 0⟩ 100 15
          Side.sell 1 1).2.1 =
        some { (⟨0, Side.buy, 10, 100, 5, 0⟩ : SimOrder) with
          qty := (⟨0, Side.buy, 10, 100, 5, 0⟩ : SimOrder).qty -
            min (⟨0, Side.buy, 10, 100, 5, 0⟩ : SimOrder).qty
              (15 - (⟨0, Side.buy, 10, 100, 5, 0⟩ : SimOrder).queue_ahead),
          queue_ahead := 0 }) :=
  fill_accounting_and_order_lifecycle initSimSt ⟨0, Side.buy, 10, 100, 5, 0⟩
    100 15 1 1 Side.sell (by norm_num [samePriceLevel, TICK]) (by decide)
    (by norm_num) (by norm_num) (by norm_num) (by norm_num [min_def])

/-- C2: the fee-accounting invariant fails on the code.  After the single
fill of 10 @ 100 under the active 40 bps (1/250) maker rate, the sum over
recorded fills of `fill_qty · price · fee_rate_at_fill` is 4 (and so is the
sum of recorded fees), yet the quote engine's `total_fees_paid` counter is
still 0: `_handle_execution_event` receives the fee in the fill event but
never accumulates it. -/
theorem total_fees_paid_diverges_from_fill_fees :
    sysC2.sim.current_maker_fee = 1 / 250 ∧
    ((processTradeUpdate sysC2 100 15 Side.sell 1 1).sim.fills.map
        (fun f => f.qty * f.price * (1 / 250))).sum = 4 ∧
    ((processTradeUpdate sysC2 100 15 Side.sell 1 1).sim.fills.map
        (fun f => f.fee)).sum = 4 ∧
    (processTradeUpdate sysC2 100 15 Side.sell 1 1).eng.total_fees_paid = 0 ∧
    ((processTradeUpdate sysC2 100 15 Side.sell 1 1).sim.fills.map
        (fun f => f.qty * f.price * (1 / 250))).sum ≠
      (processTradeUpdate sysC2 100 15 Side.sell 1 1).eng.total_fees_paid := by
  have h1 : processOrderOnTrade ⟨0, Side.buy, 10, 100, 5, 0⟩ 100 15 Side.sell =
      (none, 10) := by
    simp only [processOrderOnTrade, samePriceLevel, oppositeSides, TICK]
    norm_num
  have h2 : executeFill simC2 ⟨0, Side.buy, 10, 100, 5, 0⟩ 10 1 1 =
      (⟨[⟨0, Side.buy, 10, 100, 5, 0⟩], -4, 10, [⟨0, Side.buy, 10, 100, 4, 1⟩],
        (0, 0), none, [(1, 1000)], 1000, 1 / 250, []⟩,
       ⟨0, Side.buy, 10, 0, 100, 4⟩) := by
    norm_num [executeFill, updateFeeTier, addVolume, updateRollingVolume,
      dropExpiredVolume, pickTier, feeTiers, THIRTY_DAYS_SECONDS, simC2,
      initSimSt]
  have h3 : processTradeOrderStep simC2 ⟨0, Side.buy, 10, 100, 5, 0⟩ 100 15
      Side.sell 1 1 =
      (⟨[⟨0, Side.buy, 10, 100, 5, 0⟩], -4, 10, [⟨0, Side.buy, 10, 100, 4, 1⟩],
        (0, 0), none, [(1, 1000)], 1000, 1 / 250, []⟩,
       none,
       some ⟨0, Side.buy, 10, 0, 100, 4⟩) := by
    simp only [processTradeOrderStep, h1]
    norm_num [h2]
  have h4 : handleFillEvent engC2
      ⟨[⟨0, Side.buy, 10, 100, 5, 0⟩], -4, 10, [⟨0, Side.buy, 10, 100, 4, 1⟩],
        (0, 0), none, [(1, 1000)], 1000, 1 / 250, []⟩
      ⟨0, Side.buy, 10, 0, 100, 4⟩ 1 =
      ⟨100, ⟨100, 20, 1 / 20, 3 / 10, 10, 50, 100⟩, 0, 1000, none, none, none,
        none, none, none, 0, 0, 0, 1, [], [1],
        ⟨0, -4, 1000, 1 / 250, [], [(1, 10)], [(1, -4)],
          ⟨false, false, false⟩⟩, 0⟩ := by
    simp only [handleFillEvent, trackFill, updatePositionAndPnl, engC2,
      initEngSt, initRiskSt, engineRiskLimits]
    norm_num
  have h5 : processTradeUpdate sysC2 100 15 Side.sell 1 1 =
      ⟨⟨[], -4, 10, [⟨0, Side.buy, 10, 100, 4, 1⟩], (0, 0), none, [(1, 1000)],
          1000, 1 / 250, []⟩,
        ⟨100, ⟨100, 20, 1 / 20, 3 / 10, 10, 50, 100⟩, 0, 1000, none, none,
          none, none, none, none, 0, 0, 0, 1, [], [1],
          ⟨0, -4, 1000, 1 / 250, [], [(1, 10)], [(1, -4)],
            ⟨false, false, false⟩⟩, 0⟩⟩ := by
    have hsim : sysC2.sim = simC2 := rfl
    have heng : sysC2.eng = engC2 := rfl
    have h3' := h3
    rw [← hsim] at h3'
    have h4' := h4
    rw [← heng] at h4'
    simp only [processTradeUpdate]
    rw [show sysC2.sim.live_orders =
      [(⟨0, Side.buy, 10, 100, 5, 0⟩ : SimOrder)] from rfl]
    simp only [processTradeOrders, h3', h4', applyFillEvt, consOpt]
  refine ⟨by norm_num [sysC2, simC2, initSimSt], ?_, ?_, ?_, ?_⟩ <;>
    rw [h5] <;> norm_num

/-- C10: on either side, with an open order on that side, an unamendable
price difference, an approved replace and a rejecting final check (no queue
estimate, crossed book, or whale queue), `place_order` returns false and
submits nothing new to the simulator, but the previously open order on that
side has already been cancelled: its mirror slot is cleared and a delayed
cancel for it is in the simulator's event queue. -/
theorem place_order_replace_then_reject (sys : Sys) (side : Side)
    (price size : ℚ) (bk : Book) (b0 a0 : ℚ × ℚ) (bs aw : List (ℚ × ℚ))
    (now uq usim d lat : ℚ) (ob : EOrder)
    (hbids : bk.bids = b0 :: bs) (hasks : bk.asks = a0 :: aw)
    (hob : (if side = Side.buy then sys.eng.open_bid_order
        else sys.eng.open_ask_order) = some ob)
    (hval : 1 ≤ size * price) (hsz : 1 / 10 ≤ size)
    (hrisk : (checkPreTradeRisk sys.eng.limits
        (recordOrderAttempt sys.eng.risk now) now side size price
        sys.eng.position
        (sys.sim.cash + sys.sim.position * ((b0.1 + a0.1) / 2)) lat).1 = true)
    (hpos : if side = Side.buy then
        sys.sim.position + size ≤ sys.eng.max_position_size
      else -sys.eng.max_position_size ≤ sys.sim.position - size)
    (hamend : 5 < |price - ob.price| / TICK)
    (hrepl : shouldReplaceOrder (if side = Side.buy then
        sys.eng.last_bid_replace_time else sys.eng.last_ask_replace_time)
        price (some ob) now = true)
    (hreject : calcQueuePosition side price bk uq = none ∨
      (if side = Side.buy then a0.1 ≤ price else price ≤ b0.1) ∨
      (∃ q, calcQueuePosition side price bk uq = some q ∧ 1000 < q)) :
    (placeOrder sys side price size (some bk) now uq usim d lat).2 = false ∧
    (placeOrder sys side price size (some bk) now uq usim d lat).1.sim.live_orders =
      sys.sim.live_orders ∧
    (if side = Side.buy then
        (placeOrder sys side price size (some bk) now uq usim d lat).1.eng.open_bid_order
      else
        (placeOrder sys side price size (some bk) now uq usim d lat).1.eng.open_ask_order) =
      none ∧
    (placeOrder sys side price size (some bk) now uq usim d lat).1.sim.event_queue =
      pushEvent sys.sim.event_queue (⟨now + d, EvData.cancel ob.order_id⟩ : DelayedEvent) := by
  have hcanam : canAmendOrder (some ob) price = false := by
    simp only [canAmendOrder, decide_eq_false_iff_not]
    exact not_le.mpr hamend
  cases side with
  | buy =>
    rw [if_pos rfl] at hob hpos hrepl
    simp only [placeOrder, hbids, hasks]
    rw [if_neg (not_lt.mpr hval), if_neg (not_lt.mpr hsz)]
    rw [hrisk]
    simp only [Bool.not_true, Bool.false_eq_true, if_false, eq_self_iff_true,
      if_true, hob, hcanam, hrepl, Bool.not_false]
    rw [if_neg (not_lt.mpr hpos)]
    simp only [engCancelOrder, hob, eq_self_iff_true, if_true, simCancelOrder,
      placeOrderSubmit]
    rcases hreject with hnone | hcross | ⟨q, hq, h1000⟩
    · simp only [hnone]
      simp
    · rw [if_pos rfl] at hcross
      rcases hcalc : calcQueuePosition Side.buy price bk uq with _ | q
      · simp only [hcalc]
        simp
      · simp only [hcalc]
        rw [if_pos ⟨trivial, hcross⟩]
        simp
    · simp only [hq]
      by_cases hcross : a0.1 ≤ price
      · rw [if_pos ⟨trivial, hcross⟩]
        simp
      · rw [if_neg (fun h => hcross h.2),
          if_neg (fun h => Side.noConfusion h.1), if_pos h1000]
        simp
  | sell =>
    have hne : ¬ (Side.sell = Side.buy) := fun h => Side.noConfusion h
    rw [if_neg hne] at hob hpos hrepl
    simp only [placeOrder, hbids, hasks, if_neg hne]
    rw [if_neg (not_lt.mpr hval), if_neg (not_lt.mpr hsz)]
    rw [hrisk]
    simp only [Bool.not_true, Bool.false_eq_true, if_false, eq_self_iff_true,
      if_true, hob, hcanam, hrepl, Bool.not_false, if_neg hne]
    rw [if_neg (not_lt.mpr hpos)]
    simp only [engCancelOrder, hob, eq_self_iff_true, if_true, simCancelOrder,
      placeOrderSubmit, if_neg hne]
    rcases hreject with hnone | hcross | ⟨q, hq, h1000⟩
    · simp only [hnone]
      simp
    · rw [if_neg hne] at hcross
      rcases hcalc : calcQueuePosition Side.sell price bk uq with _ | q
      · simp only [hcalc]
        simp
      · simp only [hcalc]
        rw [if_neg (fun h => Side.noConfusion h.1), if_pos ⟨trivial, hcross⟩]
        simp
    · simp only [hq]
      by_cases hcross : price ≤ b0.1
      · rw [if_neg (fun h => Side.noConfusion h.1), if_pos ⟨trivial, hcross⟩]
        simp
      · rw [if_neg (fun h => Side.noConfusion h.1),
          if_neg (fun h => hcross h.2), if_pos h1000]
        simp

/-- Witness for C10 at a concrete input on the sell side: replacing the
resting 0.35 ask with a 0.40 quote whose queue estimate is unavailable
(598 ticks above the best ask). -/
theorem place_order_replace_then_reject_witness :
    (placeOrder sysRS Side.sell (4 / 10) 10 (some bookR) 40 (1 / 5) (1 / 5)
        (1 / 4) 0).2 = false ∧
    (placeOrder sysRS Side.sell (4 / 10) 10 (some bookR) 40 (1 / 5) (1 / 5)
        (1 / 4) 0).1.sim.live_orders = sysRS.sim.live_orders ∧
    (if Side.sell = Side.buy then
        (placeOrder sysRS Side.sell (4 / 10) 10 (some bookR) 40 (1 / 5)
          (1 / 5) (1 / 4) 0).1.eng.open_bid_order
      else
        (placeOrder sysRS Side.sell (4 / 10) 10 (some bookR) 40 (1 / 5)
          (1 / 5) (1 / 4) 0).1.eng.open_ask_order) = none ∧
    (placeOrder sysRS Side.sell (4 / 10) 10 (some bookR) 40 (1 / 5) (1 / 5)
        (1 / 4) 0).1.sim.event_queue =
      pushEvent sysRS.sim.event_queue
        (⟨40 + 1 / 4, EvData.cancel obRS.order_id⟩ : DelayedEvent) :=
  place_order_replace_then_reject sysRS Side.sell (4 / 10) 10 bookR
    (34 / 100, 50) (3402 / 10000, 50) [] [] 40 (1 / 5) (1 / 5) (1 / 4) 0 obRS
    rfl rfl
    (by rw [if_neg (show ¬ (Side.sell = Side.buy) from fun h =>
      Side.noConfusion h)]; rfl)
    (by norm_num) (by norm_num)
    (by norm_num [checkPreTradeRisk, checkDrawdownLimit,
      checkConcentrationRisk, checkVarLimit, checkOrderRateLimit,
      recordOrderAttempt, updateRiskBreaches, RiskChecks.passAll,
      Breaches.card, initRiskSt, sysRS, engRS, simRS, initSimSt, initEngSt,
      engineRiskLimits, abs,
      if_neg (show ¬ (Side.sell = Side.buy) from fun h =>
        Side.noConfusion h)])
    (by norm_num [sysRS, engRS, simRS, initSimSt, initEngSt])
    (by norm_num [TICK, obRS, abs])
    (by norm_num [shouldReplaceOrder, samePriceLevel, TICK, obRS, sysRS,
      engRS, initEngSt, abs])
    (Or.inl (by norm_num [calcQueuePosition, samePriceLevel, TICK,
      BASE_MAX_TICKS_AWAY, bookR, abs]))

/-- The success path of the buy-side replace in `place_order`: the old bid is
cancelled (mirror cleared, delayed cancel scheduled), and the fresh order is
submitted to the simulator and mirrored. -/
theorem placeOrder_replace_success (sys : Sys) (price size : ℚ)
    (bk : Book) (b0 a0 : ℚ × ℚ) (bs aw : List (ℚ × ℚ))
    (now uq usim d lat : ℚ) (ob : EOrder) (q : ℚ)
    (hbids : bk.bids = b0 :: bs) (hasks : bk.asks = a0 :: aw)
    (hob : sys.eng.open_bid_order = some ob)
    (hval : 1 ≤ size * price) (hsz : 1 / 10 ≤ size)
    (hrisk : (checkPreTradeRisk sys.eng.limits
        (recordOrderAttempt sys.eng.risk now) now Side.buy size price
        sys.eng.position
        (sys.sim.cash + sys.sim.position * ((b0.1 + a0.1) / 2)) lat).1 = true)
    (hpos : sys.sim.position + size ≤ sys.eng.max_position_size)
    (hamend : 5 < |price - ob.price| / TICK)
    (hrepl : shouldReplaceOrder sys.eng.last_bid_replace_time price (some ob)
        now = true)
    (hq : calcQueuePosition Side.buy price bk uq = some q)
    (hcross : ¬ a0.1 ≤ price) (hq1000 : ¬ 1000 < q) :
    (placeOrder sys Side.buy price size (some bk) now uq usim d lat).2 = true ∧
    (placeOrder sys Side.buy price size (some bk) now uq usim d lat).1.sim.live_orders =
      insertOrder sys.sim.live_orders
        ⟨sys.eng.next_id, Side.buy, size, price,
          simQueueAhead sys.sim.last_orderbook Side.buy price usim, now⟩ ∧
    (placeOrder sys Side.buy price size (some bk) now uq usim d lat).1.sim.event_queue =
      pushEvent sys.sim.event_queue (⟨now + d, EvData.cancel ob.order_id⟩ : DelayedEvent) ∧
    (placeOrder sys Side.buy price size (some bk) now uq usim d lat).1.eng.open_bid_order =
      some ⟨sys.eng.next_id, Side.buy, price, size, q, q, 0, size, now,
        (b0.1 + a0.1) / 2⟩ ∧
    (placeOrder sys Side.buy price size (some bk) now uq usim d lat).1.eng.open_ask_order =
      sys.eng.open_ask_order := by
  have hcanam : canAmendOrder (some ob) price = false := by
    simp only [canAmendOrder, decide_eq_false_iff_not]
    exact not_le.mpr hamend
  simp only [placeOrder, hbids, hasks]
  rw [if_neg (not_lt.mpr hval), if_neg (not_lt.mpr hsz)]
  rw [hrisk]
  simp only [Bool.not_true, Bool.false_eq_true, if_false, eq_self_iff_true,
    if_true, hob, hcanam, hrepl, Bool.not_false]
  rw [if_neg (not_lt.mpr hpos)]
  simp only [engCancelOrder, hob, eq_self_iff_true, if_true, simCancelOrder,
    placeOrderSubmit, hq]
  rw [if_neg (fun h => hcross h.2), if_neg (fun h => Side.noConfusion h.1),
    if_neg hq1000]
  simp [submitOrder, trackOrderSent]

/-- C5 counterexample: after the concrete replace call `placeC5` (which
returns true), the simulator's live-order table holds two buy orders — the
old order awaiting its delayed cancel plus the fresh submission — refuting
"at most one live order per side at any time". -/
theorem sim_table_two_buy_orders_after_replace :
    placeC5.2 = true ∧
    countSideOrders placeC5.1.sim.live_orders Side.buy = 2 ∧
    ¬ countSideOrders placeC5.1.sim.live_orders Side.buy ≤ 1 := by
  obtain ⟨h1, h2, h3, h4, h5⟩ := placeOrder_replace_success sysC5 (34 / 100) 10
    bookC5 (34 / 100, 50) (3402 / 10000, 50) [] [] 40 (1 / 5) (1 / 5) (1 / 4)
    0 obC5 10 rfl rfl rfl (by norm_num) (by norm_num)
    (by norm_num [checkPreTradeRisk, checkDrawdownLimit,
      checkConcentrationRisk, checkVarLimit, checkOrderRateLimit,
      recordOrderAttempt, updateRiskBreaches, RiskChecks.passAll,
      Breaches.card, initRiskSt, sysC5, engC5, simC5, initSimSt, initEngSt,
      engineRiskLimits, abs])
    (by norm_num [sysC5, engC5, simC5, initSimSt, initEngSt])
    (by norm_num [TICK, obC5, abs])
    (by norm_num [shouldReplaceOrder, samePriceLevel, TICK, obC5, sysC5,
      engC5, initEngSt, abs])
    (by norm_num [calcQueuePosition, samePriceLevel, TICK,
      BASE_MAX_TICKS_AWAY, bookC5, abs, max_def])
    (by norm_num [bookC5]) (by norm_num)
  refine ⟨h1, ?_, ?_⟩ <;>
    simp only [placeC5] at h2 ⊢ <;>
    rw [h2] <;>
    norm_num [sysC5, simC5, engC5, initSimSt, initEngSt, insertOrder,
      countSideOrders, simQueueAhead, bookC5, samePriceLevel, TICK, abs]

/-- C5 (amended): the quoting engine's mirror holds at most one bid and one
ask by construction (two optional slots), but the execution simulator's
live-order table transiently holds two live orders of a side after a
replace: the old order stays live until its scheduled delayed cancel drains,
after which at most one live order per side remains (the fresh order, still
mirrored by the engine). -/
theorem at_most_one_order_per_side_after_cancel_drain (sys : Sys)
    (price size : ℚ) (bk : Book) (b0 a0 : ℚ × ℚ) (bs aw : List (ℚ × ℚ))
    (now uq usim d lat t bb ba : ℚ) (ob : EOrder) (q : ℚ) (o : SimOrder)
    (hbids : bk.bids = b0 :: bs) (hasks : bk.asks = a0 :: aw)
    (hob : sys.eng.open_bid_order = some ob)
    (hval : 1 ≤ size * price) (hsz : 1 / 10 ≤ size)
    (hrisk : (checkPreTradeRisk sys.eng.limits
        (recordOrderAttempt sys.eng.risk now) now Side.buy size price
        sys.eng.position
        (sys.sim.cash + sys.sim.position * ((b0.1 + a0.1) / 2)) lat).1 = true)
    (hpos : sys.sim.position + size ≤ sys.eng.max_position_size)
    (hamend : 5 < |price - ob.price| / TICK)
    (hrepl : shouldReplaceOrder sys.eng.last_bid_replace_time price (some ob)
        now = true)
    (hq : calcQueuePosition Side.buy price bk uq = some q)
    (hcross : ¬ a0.1 ≤ price) (hq1000 : ¬ 1000 < q)
    (hqueue0 : sys.sim.event_queue = [])
    (hlive : sys.sim.live_orders = [o])
    (hoside : o.side = Side.buy)
    (hoid : o.id = ob.order_id)
    (hfresh : sys.eng.next_id ≠ ob.order_id)
    (ht : now + d ≤ t) :
    countSideOrders (placeOrder sys Side.buy price size (some bk) now uq usim
        d lat).1.sim.live_orders Side.buy = 2 ∧
    (onOrderbookUpdate (placeOrder sys Side.buy price size (some bk) now uq
        usim d lat).1 bb ba t).sim.live_orders =
      [⟨sys.eng.next_id, Side.buy, size, price,
        simQueueAhead sys.sim.last_orderbook Side.buy price usim, now⟩] ∧
    countSideOrders (onOrderbookUpdate (placeOrder sys Side.buy price size
        (some bk) now uq usim d lat).1 bb ba t).sim.live_orders Side.buy ≤ 1 ∧
    countSideOrders (onOrderbookUpdate (placeOrder sys Side.buy price size
        (some bk) now uq usim d lat).1 bb ba t).sim.live_orders Side.sell ≤ 1 ∧
    (onOrderbookUpdate (placeOrder sys Side.buy price size (some bk) now uq
        usim d lat).1 bb ba t).eng.open_bid_order =
      some ⟨sys.eng.next_id, Side.buy, price, size, q, q, 0, size, now,
        (b0.1 + a0.1) / 2⟩ := by
  obtain ⟨h1, h2, h3, h4, h5⟩ := placeOrder_replace_success sys price size bk
    b0 a0 bs aw now uq usim d lat ob q hbids hasks hob hval hsz hrisk hpos
    hamend hrepl hq hcross hq1000
  have hbeq : (o.id == sys.eng.next_id) = false := by
    rw [hoid]
    exact beq_eq_false_iff_ne.mpr (fun h => hfresh h.symm)
  have hbeq2 : (sys.eng.next_id == ob.order_id) = false :=
    beq_eq_false_iff_ne.mpr hfresh
  have hlive2 : (placeOrder sys Side.buy price size (some bk) now uq usim d
      lat).1.sim.live_orders =
      [o, ⟨sys.eng.next_id, Side.buy, size, price,
        simQueueAhead sys.sim.last_orderbook Side.buy price usim, now⟩] := by
    rw [h2, hlive]
    simp [insertOrder, hbeq]
  have hqueue2 : (placeOrder sys Side.buy price size (some bk) now uq usim d
      lat).1.sim.event_queue =
      [(⟨now + d, EvData.cancel ob.order_id⟩ : DelayedEvent)] := by
    rw [h3, hqueue0]
    rfl
  have hdec : decide ((⟨now + d, EvData.cancel ob.order_id⟩ :
      DelayedEvent).execute_time ≤ t) = true := decide_eq_true ht
  have hdrain : (onOrderbookUpdate (placeOrder sys Side.buy price size
      (some bk) now uq usim d lat).1 bb ba t) =
      { sim := { (placeOrder sys Side.buy price size (some bk) now uq usim d
            lat).1.sim with
          last_top := (bb, ba),
          event_queue := [],
          live_orders := [⟨sys.eng.next_id, Side.buy, size, price,
            simQueueAhead sys.sim.last_orderbook Side.buy price usim, now⟩] },
        eng := (placeOrder sys Side.buy price size (some bk) now uq usim d
          lat).1.eng } := by
    simp only [onOrderbookUpdate, hqueue2, List.takeWhile, List.dropWhile,
      hdec, List.foldl]
    simp only [dispatchEvent, findOrder, hlive2, List.find?, hoid,
      beq_self_eq_true, removeOrder, List.filter, bne, Bool.not_true,
      Bool.not_false, hbeq2, handleCancelEvent, h4, hoside]
    simp [hbeq2]
  refine ⟨?_, ?_, ?_, ?_, ?_⟩
  · rw [hlive2]
    simp [countSideOrders, hoside]
  · rw [hdrain]
  · rw [hdrain]
    simp [countSideOrders]
  · rw [hdrain]
    simp [countSideOrders]
  · rw [hdrain]
    exact h4

/-- Witness for the amended C5 at the concrete replace scenario, draining the
scheduled cancel at t = 41 s. -/
theorem at_most_one_order_per_side_after_cancel_drain_witness :
    countSideOrders (placeOrder sysC5 Side.buy (34 / 100) 10 (some bookC5) 40
        (1 / 5) (1 / 5) (1 / 4) 0).1.sim.live_orders Side.buy = 2 ∧
    (onOrderbookUpdate (placeOrder sysC5 Side.buy (34 / 100) 10 (some bookC5)
        40 (1 / 5) (1 / 5) (1 / 4) 0).1 (34 / 100) (3402 / 10000)
        41).sim.live_orders =
      [⟨sysC5.eng.next_id, Side.buy, 10, 34 / 100,
        simQueueAhead sysC5.sim.last_orderbook Side.buy (34 / 100) (1 / 5),
        40⟩] ∧
    countSideOrders (onOrderbookUpdate (placeOrder sysC5 Side.buy (34 / 100)
        10 (some bookC5) 40 (1 / 5) (1 / 5) (1 / 4) 0).1 (34 / 100)
        (3402 / 10000) 41).sim.live_orders Side.buy ≤ 1 ∧
    countSideOrders (onOrderbookUpdate (placeOrder sysC5 Side.buy (34 / 100)
        10 (some bookC5) 40 (1 / 5) (1 / 5) (1 / 4) 0).1 (34 / 100)
        (3402 / 10000) 41).sim.live_orders Side.sell ≤ 1 ∧
    (onOrderbookUpdate (placeOrder sysC5 Side.buy (34 / 100) 10 (some bookC5)
        40 (1 / 5) (1 / 5) (1 / 4) 0).1 (34 / 100) (3402 / 10000)
        41).eng.open_bid_order =
      some ⟨sysC5.eng.next_id, Side.buy, 34 / 100, 10, 10, 10, 0, 10, 40,
        (((34 / 100 : ℚ), (50 : ℚ)).1 + ((3402 / 10000 : ℚ), (50 : ℚ)).1) / 2⟩ :=
  at_most_one_order_per_side_after_cancel_drain sysC5 (34 / 100) 10 bookC5
    (34 / 100, 50) (3402 / 10000, 50) [] [] 40 (1 / 5) (1 / 5) (1 / 4) 0 41
    (34 / 100) (3402 / 10000) obC5 10 ⟨0, Side.buy, 10, 33 / 100, 5, 0⟩
    rfl rfl rfl (by norm_num) (by norm_num)
    (by norm_num [checkPreTradeRisk, checkDrawdownLimit,
      checkConcentrationRisk, checkVarLimit, checkOrderRateLimit,
      recordOrderAttempt, updateRiskBreaches, RiskChecks.passAll,
      Breaches.card, initRiskSt, sysC5, engC5, simC5, initSimSt, initEngSt,
      engineRiskLimits, abs])
    (by norm_num [sysC5, engC5, simC5, initSimSt, initEngSt])
    (by norm_num [TICK, obC5, abs])
    (by norm_num [shouldReplaceOrder, samePriceLevel, TICK, obC5, sysC5,
      engC5, initEngSt, abs])
    (by norm_num [calcQueuePosition, samePriceLevel, TICK,
      BASE_MAX_TICKS_AWAY, bookC5, abs, max_def])
    (by norm_num [bookC5]) (by norm_num)
    rfl rfl rfl rfl (by norm_num [sysC5, engC5, initEngSt, obC5])
    (by norm_num)

end HFT
